import Mathlib

/-!
Verification development for the batumi UI / LFO core (ui.cc).

The file shallowly embeds the C++ source into Lean: machine integers are
modelled as Nat / Int with explicit reductions modulo powers of two where the
C code relies on unsigned wraparound, stateful code is modelled by explicit
state passing, and the external collaborators (ADC, switch debouncer, clock,
LED driver, wavetable interpolation) appear as inputs or function parameters,
matching the interface contracts of the specification.
-/

namespace Batumi

/-- Long-press threshold in milliseconds (kLongPressDuration in ui.cc). -/
def kLongPressDuration : Int := 500

/-- Very-long-press threshold in milliseconds (kVeryLongPressDuration in ui.cc). -/
def kVeryLongPressDuration : Int := 2000

/-- Pot move threshold (kPotMoveThreshold in ui.cc, 1 << (16 - 10)). -/
def kPotMoveThreshold : Int := 1 <<< (16 - 10)

/-- Pot catch-up threshold (kCatchupThreshold in ui.cc, 1 << 10). -/
def kCatchupThreshold : Int := 1 <<< 10

/-! ## Switch input filter

State kept per physical switch by Ui::Poll: press_time_[i] (millisecond
timestamp of the press, 0 meaning not pressed) and detect_very_long_press_[i].
Times are modelled as Nat (the millisecond clock is monotone, starting at 0);
event data values are modelled as Int (stmlib events carry signed data, and a
release event's data is computed by signed arithmetic).
-/

/-- Per-switch input-filter state: press_time_[i] and detect_very_long_press_[i]. -/
structure SwState where
  pressTime : Nat
  detectVeryLongPress : Bool
deriving DecidableEq, Repr

/-- First branch of the switch section of Ui::Poll (lines 66-70): on
just_pressed, enqueue a press event with data 0, record the press timestamp
and clear the very-long-press detection flag. Returns the updated state and
the data values of the events enqueued by this branch. -/
def swPollPress (st : SwState) (justPressed : Bool) (now : Nat) :
    SwState × List Int :=
  if justPressed then (⟨now, false⟩, [0]) else (st, [])

/-- Second branch of the switch section of Ui::Poll (lines 71-86): while the
switch is held, emit a long-press event once the elapsed time exceeds
kLongPressDuration (arming very-long detection), and afterwards a very-long
press event once it exceeds kVeryLongPressDuration (which clears press_time_). -/
def swPollHold (st : SwState) (pressed : Bool) (now : Nat) :
    SwState × List Int :=
  if pressed then
    let pressedTime : Int := (now : Int) - (st.pressTime : Int)
    if !st.detectVeryLongPress then
      if pressedTime > kLongPressDuration then
        ({ st with detectVeryLongPress := true }, [pressedTime])
      else (st, [])
    else
      if pressedTime > kVeryLongPressDuration then
        (⟨0, false⟩, [pressedTime])
      else (st, [])
  else (st, [])

/-- Third branch of the switch section of Ui::Poll (lines 88-97): on release,
if press_time_ is nonzero and very-long detection is not armed, enqueue a
release event carrying the elapsed time plus one, and reset the state. -/
def swPollRelease (st : SwState) (released : Bool) (now : Nat) :
    SwState × List Int :=
  if released && (st.pressTime != 0) && !st.detectVeryLongPress then
    (⟨0, false⟩, [(now : Int) - (st.pressTime : Int) + 1])
  else (st, [])

/-- One poll cycle of the switch section of Ui::Poll for a single switch:
the three branches run in sequence on the same state. -/
def swPoll (st : SwState) (justPressed pressed released : Bool) (now : Nat) :
    SwState × List Int :=
  let r1 := swPollPress st justPressed now
  let r2 := swPollHold r1.1 pressed now
  let r3 := swPollRelease r2.1 released now
  (r3.1, r1.2 ++ r2.2 ++ r3.2)

/-- Polls a held switch for n consecutive cycles: poll j happens at time
t0 + j (one poll per millisecond), with the switch held down (pressed true,
just_pressed and released false). Returns the final state and all events. -/
def holdLoop (st : SwState) (t0 : Nat) (j : Nat) : Nat → SwState × List Int
  | 0 => (st, [])
  | n + 1 =>
    let r1 := swPoll st false true false (t0 + j)
    let r2 := holdLoop r1.1 t0 (j + 1) n
    (r2.1, r1.2 ++ r2.2)

/-- Simulates one full physical press-hold-release cycle of a switch polled
once per millisecond: the switch goes down at time t0 (a poll with
just_pressed and pressed true), stays down through the polls at times
t0 + 1 .. t0 + d - 1, and is released at the poll at time t0 + d (released
true, pressed false). Returns the data values of all enqueued switch events. -/
def simulateHold (t0 d : Nat) : List Int :=
  let r1 := swPoll ⟨0, false⟩ true true false t0
  let r2 := holdLoop r1.1 t0 1 (d - 1)
  let r3 := swPoll r2.1 false false true (t0 + d)
  r1.2 ++ r2.2 ++ r3.2

/-! ## Pot input filter -/

/-- Pot section of Ui::Poll (lines 100-111) for a single pot: smooth the ADC
sample into pot_filtered_value_ via (31 * old + sample) >> 5, and if the
smoothed value differs from pot_value_ by at least kPotMoveThreshold in either
direction, enqueue a motion event carrying the smoothed value and update
pot_value_. Returns (new filtered value, new pot_value_, optional event data). -/
def potPoll (filtered potValue adcValue : Nat) : Nat × Nat × Option Int :=
  let value := (31 * filtered + adcValue) >>> 5
  if (value : Int) ≥ (potValue : Int) + kPotMoveThreshold ∨
      (value : Int) ≤ (potValue : Int) - kPotMoveThreshold then
    (value, value, some (value : Int))
  else
    (value, potValue, none)

/-! ## Event dispatch -/

/-- Which switch handler Ui::DoEvents dispatches a switch event to. -/
inductive SwDispatch
  | pressedHandler
  | releasedHandler
deriving DecidableEq, Repr

/-- Dispatch rule of Ui::DoEvents (lines 209-214) for switch events: an event
with data 0 goes to OnSwitchPressed, every other event to OnSwitchReleased. -/
def dispatchSwitch (data : Int) : SwDispatch :=
  if data = 0 then .pressedHandler else .releasedHandler

/-! ## Oscillator (Lfo) state -/

/-- Per-channel oscillator state (lfo.h fields used by lfo.cc). The 32-bit
unsigned fields are Nats kept below 2 ^ 32; pitch fields are signed. -/
structure LfoState where
  phase : Nat
  dividedPhase : Nat
  initialPhase : Nat
  phaseIncrement : Nat
  divider : Nat
  dividerCount : Nat
  level : Nat
  pitch : Int
  dividedPitch : Int
deriving DecidableEq, Repr

/-- Lfo::Init (lfo.cc lines 265-273): resets phase, divided phase, initial
phase to 0, phase_increment to UINT32_MAX >> 8, divider to 1, divider_count
to 0 and level to UINT16_MAX. The pitch fields are not touched by Init. -/
def lfoInitState (l : LfoState) : LfoState :=
  { l with
    phase := 0
    dividedPhase := 0
    initialPhase := 0
    phaseIncrement := (2 ^ 32 - 1) >>> 8
    divider := 1
    dividerCount := 0
    level := 2 ^ 16 - 1 }

/-- Lfo::Step (lfo.cc lines 275-281): advance the 32-bit phase accumulator by
phase_increment with unsigned wraparound; if the addition wrapped (detected as
new phase < increment), advance divider_count modulo divider; then derive
divided_phase as phase / divider + UINT32_MAX / divider * divider_count. -/
def lfoStep (l : LfoState) : LfoState :=
  let phase := (l.phase + l.phaseIncrement) % 2 ^ 32
  let dividerCount :=
    if phase < l.phaseIncrement then (l.dividerCount + 1) % l.divider
    else l.dividerCount
  let dividedPhase := phase / l.divider + (2 ^ 32 - 1) / l.divider * dividerCount
  { l with phase := phase, dividerCount := dividerCount, dividedPhase := dividedPhase }

/-! ## UI state machine -/

/-- UI display mode (UiMode in ui.h, values used by ui.cc). -/
inductive UiMode
  | splash
  | zoom
  | normal
deriving DecidableEq, Repr

/-- Panel switch identifiers, as named by the switch statement of
Ui::OnSwitchReleased (ui.cc lines 157-162). -/
inductive SwitchId
  | sync
  | wav1
  | wav2
  | select
deriving DecidableEq, Repr

/-- Modelled from the spec: FEAT_MODE_LAST, the number of values of the
FeatureMode enumeration declared in ui.h (not in src/). The spec describes a
fixed ordered set of features cycled by gesture, one per panel LED; ui.cc
addresses one LED per feature mode and the panel has 4 LEDs. -/
def featModeLast : Nat := 4

/-- Full state owned by the Ui object that is read or written by the event
handlers: the display mode, the feature mode, the four per-pot value records,
the four catch-up flags, and the four oscillators (referenced as lfo_). -/
structure UiState where
  mode : UiMode
  featMode : Nat
  potValue : Fin 4 → Int
  potFilteredValue : Fin 4 → Int
  potCoarseValue : Fin 4 → Int
  potFineValue : Fin 4 → Int
  catchupState : Fin 4 → Bool
  lfos : Fin 4 → LfoState

/-- Ui::OnSwitchPressed (ui.cc lines 153-154): the body is empty, so the
state is returned unchanged. -/
def onSwitchPressed (s : UiState) (_id : SwitchId) (_data : Int) : UiState := s

/-- Ui::OnSwitchReleased (ui.cc lines 156-188). SYNC, WAV1 and WAV2 releases
do nothing. For SELECT: data above kVeryLongPressDuration is ignored; data
above kLongPressDuration sets the mode to ZOOM (whatever the current mode);
otherwise the action depends on the mode: nothing in SPLASH; in ZOOM, every
pot whose last reported value differs from its coarse value by more than
kCatchupThreshold gets its catch-up flag set, and the mode becomes NORMAL;
in NORMAL, the feature mode advances cyclically and all 4 oscillators are
re-initialized. -/
def onSwitchReleased (s : UiState) (id : SwitchId) (data : Int) : UiState :=
  match id with
  | .sync => s
  | .wav1 => s
  | .wav2 => s
  | .select =>
    if data > kVeryLongPressDuration then s
    else if data > kLongPressDuration then { s with mode := .zoom }
    else
      match s.mode with
      | .splash => s
      | .zoom =>
        { s with
          catchupState := fun i =>
            if (s.potValue i - s.potCoarseValue i).natAbs > kCatchupThreshold.toNat
            then true else s.catchupState i
          mode := .normal }
      | .normal =>
        { s with
          featMode := (s.featMode + 1) % featModeLast
          lfos := fun i => lfoInitState (s.lfos i) }

/-- Ui::OnPotChanged (ui.cc lines 190-204): ignored in SPLASH; in ZOOM the
value is stored as the fine value of the pot; in NORMAL, if the value is
within kCatchupThreshold of the pot's coarse value, the coarse value is
updated to it and the catch-up flag cleared, otherwise nothing changes. -/
def onPotChanged (s : UiState) (id : Fin 4) (data : Int) : UiState :=
  match s.mode with
  | .splash => s
  | .zoom => { s with potFineValue := Function.update s.potFineValue id data }
  | .normal =>
    if (data - s.potCoarseValue id).natAbs < kCatchupThreshold.toNat then
      { s with
        potCoarseValue := Function.update s.potCoarseValue id data
        catchupState := Function.update s.catchupState id false }
    else s

/-- Mode effect of the interface-painting section of Ui::Poll (ui.cc lines
114-144), driven by the global animation counter: in SPLASH the counter is
incremented and, when it reaches a multiple of 64 past the eighth animation
cycle, the mode becomes NORMAL; ZOOM and NORMAL only increment the counter
(the LED writes are external output with no state effect). Returns the new
mode and the new animation counter. -/
def uiPaintMode (mode : UiMode) (counter : Nat) : UiMode × Nat :=
  match mode with
  | .splash =>
    let c := counter + 1
    (if c % 64 = 0 ∧ c / 64 > 8 then .normal else .splash, c)
  | .zoom => (.zoom, counter + 1)
  | .normal => (.normal, counter + 1)

/-! ## Phase increment computation (Lfo::ComputePhaseIncrement) -/

/-- Modelled from the spec: kOctave, the octave size constant used by
Lfo::ComputePhaseIncrement but declared outside src/ (lfo.h / resources.h).
The spec only calls it octave_size; the value 12 * 128 = 1536 realizes the
conventional 128-steps-per-semitone pitch scale and makes the fractional
octave position pitch >> 4 index a 97-entry increment table. -/
def kOctave : Int := 1536

/-- First while loop of Lfo::ComputePhaseIncrement (lfo.cc lines 286-289):
while pitch < 0, add kOctave and decrement num_shifts. Returns the adjusted
pitch and the (nonpositive) shift count contributed by this loop. -/
def octUp (p : Int) : Int × Int :=
  if p < 0 then
    let r := octUp (p + kOctave)
    (r.1, r.2 - 1)
  else (p, 0)
termination_by (-p).toNat
decreasing_by
  simp only [kOctave]
  omega

/-- Second while loop of Lfo::ComputePhaseIncrement (lfo.cc lines 290-293):
while pitch >= kOctave, subtract kOctave and increment num_shifts. Returns
the adjusted pitch and the (nonnegative) shift count from this loop. -/
def octDown (p : Int) : Int × Int :=
  if p ≥ kOctave then
    let r := octDown (p - kOctave)
    (r.1, r.2 + 1)
  else (p, 0)
termination_by p.toNat
decreasing_by
  simp only [kOctave] at *
  omega

/-- Octave normalization of Lfo::ComputePhaseIncrement: both loops run in
sequence on the same pitch variable, accumulating num_shifts. Returns the
residual pitch (in [0, kOctave) for any input) and the net shift count. -/
def octNorm (p : Int) : Int × Int :=
  let r1 := octUp p
  let r2 := octDown r1.1
  (r2.1, r1.2 + r2.2)

/-- Table lookup and interpolation step of Lfo::ComputePhaseIncrement (lfo.cc
lines 294-297) on a residual pitch in [0, kOctave): a and b are the uint32
entries lut_increments[pitch >> 4] and lut_increments[(pitch >> 4) + 1], and
the result is a + ((b - a) * (pitch & 0xf) >> 4) in uint32 arithmetic (the
subtraction and the product wrap modulo 2 ^ 32). The table itself lives in
resources.cc (outside src/) and is passed as a parameter; entries are reduced
modulo 2 ^ 32 as the C type uint32_t dictates. -/
def lutInterp (tbl : Nat → Nat) (res : Int) : Nat :=
  let idx := res.toNat >>> 4
  let a := tbl idx % 2 ^ 32
  let b := tbl (idx + 1) % 2 ^ 32
  (a + ((2 ^ 32 + b - a) % 2 ^ 32 * (res.toNat % 16) % 2 ^ 32) >>> 4) % 2 ^ 32

/-- Lfo::ComputePhaseIncrement (lfo.cc lines 283-301): normalize the pitch
into one octave counting shifts, interpolate the increment table, then shift
the interpolated increment left (nonnegative shift count, with uint32
wraparound) or right (negative shift count). -/
def computePhaseIncrement (tbl : Nat → Nat) (pitch : Int) : Nat :=
  let r := octNorm pitch
  let phaseIncrement := lutInterp tbl r.1
  if 0 ≤ r.2 then (phaseIncrement <<< r.2.toNat) % 2 ^ 32
  else phaseIncrement >>> (-r.2).toNat

/-! ## Waveform computation (Lfo::ComputeSample*)

The wavetable interpolators Interpolate1022 / Crossfade1022 and the
band-limited tables (wav_tri10, wav_saw100, ...) live in stmlib and
resources.cc, outside src/; the spec lists wavetable content as an external
collaborator. They are modelled as an environment of functions from phase
(and balance) to an int16 sample. The pitch band thresholds kPitch1Hz,
kPitch10Hz and kPitch100Hz (declared outside src/) are also part of the
environment.
-/

/-- External wavetable environment for the sample computations: one
interpolated band-limited table reader per (waveform, band) pair, one
crossfader per waveform for the middle band, and the three pitch thresholds. -/
structure WaveEnv where
  interpTri10 : Nat → Int
  interpTri100 : Nat → Int
  crossTri : Nat → Nat → Int
  interpSaw10 : Nat → Int
  interpSaw100 : Nat → Int
  crossSaw : Nat → Nat → Int
  interpTrap10 : Nat → Int
  interpTrap100 : Nat → Int
  crossTrap : Nat → Nat → Int
  kPitch1Hz : Int
  kPitch10Hz : Int
  kPitch100Hz : Int

/-- Truncation of a signed integer to int16, as C narrowing conversions do
(two's complement, keep the low 16 bits). -/
def i16 (x : Int) : Int := (x + 2 ^ 15) % 2 ^ 16 - 2 ^ 15

/-- Arithmetic right shift by 16 of a (possibly negative) int32 value, which
is floor division by 2 ^ 16. -/
def asr16 (x : Int) : Int := x / 2 ^ 16

/-- Conversion of the int32 balance expression to uint16_t, as in the C
crossfade branches (keep the low 16 bits, nonnegative). -/
def toU16 (x : Int) : Nat := (x % 2 ^ 16).toNat

/-- Frequency-band crossfade pattern shared by the waveform computations:
given the closed-form sample, the two band-limited table readers and the
crossfader of one waveform, dispatch on the divided pitch into the four
bands exactly as lfo.cc does, then scale by level and shift right by 16. -/
def computeSampleBands (env : WaveEnv) (l : LfoState) (phase : Nat)
    (closed : Int) (interp10 interp100 : Nat → Int) (cross : Nat → Nat → Int) :
    Int :=
  let pitch := l.dividedPitch
  let x :=
    if pitch > env.kPitch100Hz then interp100 phase
    else if pitch > env.kPitch10Hz then
      let balance := toU16 ((pitch - env.kPitch10Hz) * 65535 /
        (env.kPitch100Hz - env.kPitch10Hz))
      cross phase balance
    else if pitch > env.kPitch1Hz then
      let balance := toU16 ((pitch - env.kPitch1Hz) * 65535 /
        (env.kPitch10Hz - env.kPitch1Hz))
      let a := closed
      let b := interp10 phase
      i16 (a + asr16 ((b - a) * balance))
    else closed
  i16 (asr16 (x * (l.level : Int)))

/-- Lfo::ComputeSampleTriangle (lfo.cc lines 324-346): closed form is a
triangle of the 32-bit phase (initial_phase_ + divided_phase_, wrapping),
rising on the first half and falling on the second, truncated to int16 as
the C declaration int16_t tri does. -/
def computeSampleTriangle (env : WaveEnv) (l : LfoState) : Int :=
  let phase := (l.initialPhase + l.dividedPhase) % 2 ^ 32
  let tri :=
    if phase < 2 ^ 31 then i16 (-32768 + (phase >>> 15 : Nat))
    else i16 (32767 - ((phase >>> 15 : Nat) : Int))
  computeSampleBands env l phase tri env.interpTri10 env.interpTri100 env.crossTri

/-- Lfo::ComputeSampleRamp (lfo.cc lines 352-372): closed form is
-32678 + (phase >> 16) (the constant -32678 is as written in the source),
truncated to int16. -/
def computeSampleRamp (env : WaveEnv) (l : LfoState) : Int :=
  let phase := (l.initialPhase + l.dividedPhase) % 2 ^ 32
  let ramp := i16 (-32678 + ((phase >>> 16 : Nat) : Int))
  computeSampleBands env l phase ramp env.interpSaw10 env.interpSaw100 env.crossSaw

/-- Lfo::ComputeSampleSaw (lfo.cc lines 348-350): the negated ramp sample. -/
def computeSampleSaw (env : WaveEnv) (l : LfoState) : Int :=
  -(computeSampleRamp env l)

/-- Lfo::ComputeSampleTrapezoid (lfo.cc lines 374-396): closed form is the
triangle doubled and clamped to the int16 range by CONSTRAIN. -/
def computeSampleTrapezoid (env : WaveEnv) (l : LfoState) : Int :=
  let phase := (l.initialPhase + l.dividedPhase) % 2 ^ 32
  let tri :=
    if phase < 2 ^ 31 then i16 (-32768 + (phase >>> 15 : Nat))
    else i16 (32767 - ((phase >>> 15 : Nat) : Int))
  let trap := max (-32768) (min 32767 (tri * 2))
  computeSampleBands env l phase trap env.interpTrap10 env.interpTrap100 env.crossTrap

/-- Waveform shape selector (LfoShape values dispatched by lfo.cc). -/
inductive LfoShape
  | shapeTriangle
  | shapeSaw
  | shapeRamp
  | shapeTrapezoid
deriving DecidableEq, Repr

/-- Lfo::ComputeSampleShape (lfo.cc lines 303-316): the selector is first
overwritten with SHAPE_SAW (the source line reads s = SHAPE_SAW; with the
comment TODO temp), then the switch dispatches on it. -/
def computeSampleShape (env : WaveEnv) (l : LfoState) (s : LfoShape) : Int :=
  let s := LfoShape.shapeSaw
  match s with
  | .shapeTriangle => computeSampleTriangle env l
  | .shapeSaw => computeSampleSaw env l
  | .shapeRamp => computeSampleRamp env l
  | .shapeTrapezoid => computeSampleTrapezoid env l

/-! ## Concrete states used by witnesses and counterexamples -/

/-- An oscillator state with all fields zeroed (divider 1). -/
def lfoZero : LfoState :=
  { phase := 0, dividedPhase := 0, initialPhase := 0, phaseIncrement := 0,
    divider := 1, dividerCount := 0, level := 0, pitch := 0, dividedPitch := 0 }

/-- A concrete UI state in SPLASH mode. -/
def splashState : UiState :=
  { mode := .splash, featMode := 0, potValue := fun _ => 0,
    potFilteredValue := fun _ => 0, potCoarseValue := fun _ => 0,
    potFineValue := fun _ => 0, catchupState := fun _ => false,
    lfos := fun _ => lfoZero }

/-- A concrete UI state in ZOOM mode whose pots have drifted 4900 counts away
from their coarse values. -/
def zoomState : UiState :=
  { splashState with
    mode := .zoom
    potValue := fun _ => 5000
    potCoarseValue := fun _ => 100 }

/-- A concrete UI state in NORMAL mode with pending catch-up on every pot. -/
def normalState : UiState :=
  { splashState with
    mode := .normal
    potValue := fun _ => 5000
    potCoarseValue := fun _ => 100
    catchupState := fun _ => true }

/-- A wavetable environment whose tables read as 0 everywhere and whose pitch
thresholds sit above the very low pitch of bandDLfo, so that sample
computations on bandDLfo take the closed-form (band D) path, which does not
depend on the external tables at all. -/
def bandDEnv : WaveEnv :=
  { interpTri10 := fun _ => 0, interpTri100 := fun _ => 0,
    crossTri := fun _ _ => 0,
    interpSaw10 := fun _ => 0, interpSaw100 := fun _ => 0,
    crossSaw := fun _ _ => 0,
    interpTrap10 := fun _ => 0, interpTrap100 := fun _ => 0,
    crossTrap := fun _ _ => 0,
    kPitch1Hz := -25000, kPitch10Hz := -24000, kPitch100Hz := -23000 }

/-- An oscillator state at phase 0, full level, with a divided pitch far below
every band threshold of bandDEnv. -/
def bandDLfo : LfoState :=
  { lfoZero with level := 2 ^ 16 - 1, pitch := -30000, dividedPitch := -30000 }

/-- A concrete oscillator state about to wrap its phase accumulator:
divider 3, divider_count 1, divided phase consistent with the Step formula. -/
def wrapLfo : LfoState :=
  { lfoZero with
    phase := 2 ^ 32 - 5
    phaseIncrement := 10
    divider := 3
    dividerCount := 1
    dividedPhase := (2 ^ 32 - 5) / 3 + (2 ^ 32 - 1) / 3 * 1 }

/-- Applies Ui::OnPotChanged to a list of pot motion events in order, as
Ui::DoEvents does when draining the queue. -/
def runPotEvents (s : UiState) (evs : List (Fin 4 × Int)) : UiState :=
  evs.foldl (fun t e => onPotChanged t e.1 e.2) s

/-! ## Helper lemmas on the switch input filter -/

theorem swPoll_press (t0 : Nat) :
    swPoll ⟨0, false⟩ true true false t0 = (⟨t0, false⟩, [0]) := by
  have h : ((t0 : Nat) : Int) - ((t0 : Nat) : Int) = 0 := by ring
  simp [swPoll, swPollPress, swPollHold, swPollRelease, h, kLongPressDuration]

theorem swPoll_held_quiet (t0 j : Nat) (h2 : j ≤ 500) :
    swPoll ⟨t0, false⟩ false true false (t0 + j) = (⟨t0, false⟩, []) := by
  have hpt : ((t0 + j : Nat) : Int) - ((t0 : Nat) : Int) = (j : Int) := by
    push_cast; ring
  have hc : ¬((j : Int) > kLongPressDuration) := by
    simp only [kLongPressDuration]; exact_mod_cast not_lt.2 (by exact_mod_cast h2)
  simp [swPoll, swPollPress, swPollHold, swPollRelease, hpt, hc]

theorem swPoll_held_long (t0 : Nat) :
    swPoll ⟨t0, false⟩ false true false (t0 + 501) = (⟨t0, true⟩, [501]) := by
  have hpt : ((t0 + 501 : Nat) : Int) - ((t0 : Nat) : Int) = (501 : Int) := by
    push_cast; ring
  simp [swPoll, swPollPress, swPollHold, swPollRelease, hpt, kLongPressDuration]

theorem swPoll_held_armed_quiet (t0 j : Nat) (h2 : j ≤ 2000) :
    swPoll ⟨t0, true⟩ false true false (t0 + j) = (⟨t0, true⟩, []) := by
  have hpt : ((t0 + j : Nat) : Int) - ((t0 : Nat) : Int) = (j : Int) := by
    push_cast; ring
  have hc : ¬((j : Int) > kVeryLongPressDuration) := by
    simp only [kVeryLongPressDuration]
    exact_mod_cast not_lt.2 (by exact_mod_cast h2)
  simp [swPoll, swPollPress, swPollHold, swPollRelease, hpt, hc]

theorem swPoll_held_verylong (t0 : Nat) :
    swPoll ⟨t0, true⟩ false true false (t0 + 2001) = (⟨0, false⟩, [2001]) := by
  have hpt : ((t0 + 2001 : Nat) : Int) - ((t0 : Nat) : Int) = (2001 : Int) := by
    push_cast; ring
  simp [swPoll, swPollPress, swPollHold, swPollRelease, hpt,
    kVeryLongPressDuration]

theorem swPoll_runaway (b : Bool) (t : Nat) (h : 2001 ≤ t) :
    swPoll ⟨0, b⟩ false true false t = (⟨0, !b⟩, [(t : Int)]) := by
  have h1 : ((t : Nat) : Int) - ((0 : Nat) : Int) = (t : Int) := by push_cast; ring
  have h2 : (t : Int) > kLongPressDuration := by
    simp only [kLongPressDuration]; exact_mod_cast lt_of_lt_of_le (by norm_num) h
  have h3 : (t : Int) > kVeryLongPressDuration := by
    simp only [kVeryLongPressDuration]; exact_mod_cast lt_of_lt_of_le (by norm_num) h
  cases b <;>
    simp [swPoll, swPollPress, swPollHold, swPollRelease, h1, h2, h3]

theorem swPoll_release_fire (t0 d : Nat) (h : 1 ≤ t0) :
    swPoll ⟨t0, false⟩ false false true (t0 + d) = (⟨0, false⟩, [(d : Int) + 1]) := by
  have hpt : ((t0 + d : Nat) : Int) - ((t0 : Nat) : Int) + 1 = (d : Int) + 1 := by
    push_cast; ring
  have ht : (t0 != 0) = true := by simpa using by omega
  simp [swPoll, swPollPress, swPollHold, swPollRelease, ht, hpt]

theorem swPoll_release_silent_armed (t0 now : Nat) :
    swPoll ⟨t0, true⟩ false false true now = (⟨t0, true⟩, []) := by
  simp [swPoll, swPollPress, swPollHold, swPollRelease]

theorem swPoll_release_silent_zero (b : Bool) (now : Nat) :
    swPoll ⟨0, b⟩ false false true now = (⟨0, b⟩, []) := by
  simp [swPoll, swPollPress, swPollHold, swPollRelease]

theorem holdLoop_split (t0 : Nat) :
    ∀ m n (st : SwState) (j : Nat),
      holdLoop st t0 j (m + n) =
        ((holdLoop (holdLoop st t0 j m).1 t0 (j + m) n).1,
         (holdLoop st t0 j m).2 ++ (holdLoop (holdLoop st t0 j m).1 t0 (j + m) n).2) := by
  intro m
  induction m with
  | zero => intro n st j; simp [holdLoop]
  | succ m ih =>
    intro n st j
    have hadd : m + 1 + n = (m + n) + 1 := by omega
    rw [hadd]
    simp only [holdLoop]
    rw [ih n (swPoll st false true false (t0 + j)).1 (j + 1)]
    simp only [holdLoop, List.append_assoc]
    have hj : j + 1 + m = j + (m + 1) := by omega
    rw [hj]

theorem holdLoop_quiet (t0 : Nat) :
    ∀ n j, j + n ≤ 501 →
      holdLoop ⟨t0, false⟩ t0 j n = (⟨t0, false⟩, []) := by
  intro n
  induction n with
  | zero => intro j _; rfl
  | succ n ih =>
    intro j hle
    simp only [holdLoop]
    rw [swPoll_held_quiet t0 j (by omega)]
    rw [ih (j + 1) (by omega)]
    rfl

theorem holdLoop_armed_quiet (t0 : Nat) :
    ∀ n j, j + n ≤ 2001 →
      holdLoop ⟨t0, true⟩ t0 j n = (⟨t0, true⟩, []) := by
  intro n
  induction n with
  | zero => intro j _; rfl
  | succ n ih =>
    intro j hle
    simp only [holdLoop]
    rw [swPoll_held_armed_quiet t0 j (by omega)]
    rw [ih (j + 1) (by omega)]
    rfl

theorem holdLoop_runaway (t0 : Nat) :
    ∀ n (b : Bool) (j : Nat), 2001 ≤ t0 + j →
      (holdLoop ⟨0, b⟩ t0 j n).1.pressTime = 0 ∧
      (holdLoop ⟨0, b⟩ t0 j n).2 =
        (List.range n).map (fun k => ((t0 + j + k : Nat) : Int)) := by
  intro n
  induction n with
  | zero => intro b j _; exact ⟨rfl, rfl⟩
  | succ n ih =>
    intro b j hj
    simp only [holdLoop]
    rw [swPoll_runaway b (t0 + j) hj]
    obtain ⟨h1, h2⟩ := ih (!b) (j + 1) (by omega)
    refine ⟨h1, ?_⟩
    rw [h2, List.range_succ_eq_map, List.map_cons, List.map_map]
    have htail :
        List.map (fun k => ((t0 + (j + 1) + k : Nat) : Int)) (List.range n) =
        List.map ((fun k => ((t0 + j + k : Nat) : Int)) ∘ Nat.succ)
          (List.range n) := by
      apply List.map_congr_left
      intro k _
      show ((t0 + (j + 1) + k : Nat) : Int) = ((t0 + j + Nat.succ k : Nat) : Int)
      congr 1
      omega
    simp only [List.cons_append, List.nil_append]
    rw [htail]
    congr 1

/-- Unfolding lemma: a hold loop of zero polls does nothing. -/
theorem holdLoop_zero (st : SwState) (t0 j : Nat) :
    holdLoop st t0 j 0 = (st, []) := rfl

/-- Unfolding lemma: a hold loop of n + 1 polls runs one poll at time t0 + j
and then the remaining n polls. -/
theorem holdLoop_succ (st : SwState) (t0 j n : Nat) :
    holdLoop st t0 j (n + 1) =
      ((holdLoop (swPoll st false true false (t0 + j)).1 t0 (j + 1) n).1,
        (swPoll st false true false (t0 + j)).2 ++
          (holdLoop (swPoll st false true false (t0 + j)).1 t0 (j + 1) n).2) := rfl

/-- Full characterization of the event sequence produced by a single
press-hold-release cycle of one switch, polled once per millisecond, with the
press happening at any time t0 >= 1 and the hold lasting d polls: a hold of
at most 501 polls gives a press event and a release event with data d + 1; a
hold of 502 to 2001 polls gives a press event and a long-press event (and no
release event, because the release branch requires the very-long-press
detection flag to be clear); a hold of 2002 polls or more gives press,
long-press and very-long-press events followed by one further event on every
later poll while the switch stays held (the very-long branch clears
press_time_, so the elapsed time is computed from 0 and keeps re-triggering
both timed branches), and again no release event. -/
theorem simulateHold_spec (t0 d : Nat) (ht : 1 ≤ t0) (hd : 1 ≤ d) :
    (d ≤ 501 → simulateHold t0 d = [0, (d : Int) + 1]) ∧
    (502 ≤ d → d ≤ 2001 → simulateHold t0 d = [0, 501]) ∧
    (2002 ≤ d → simulateHold t0 d =
      [0, 501, 2001] ++
        (List.range (d - 2002)).map (fun k => ((t0 + 2002 + k : Nat) : Int))) := by
  refine ⟨?_, ?_, ?_⟩
  · intro hle
    unfold simulateHold
    rw [swPoll_press t0]
    dsimp only
    rw [holdLoop_quiet t0 (d - 1) 1 (by omega)]
    rw [swPoll_release_fire t0 d ht]
    rfl
  · intro h1 h2
    unfold simulateHold
    rw [swPoll_press t0]
    dsimp only
    rw [show d - 1 = 500 + ((d - 502) + 1) from by omega]
    rw [holdLoop_split t0 500 ((d - 502) + 1) ⟨t0, false⟩ 1]
    rw [holdLoop_quiet t0 500 1 (by omega)]
    dsimp only
    rw [holdLoop_succ]
    rw [show t0 + (1 + 500) = t0 + 501 from by omega]
    rw [swPoll_held_long t0]
    dsimp only
    rw [show (1 : Nat) + 500 + 1 = 502 from by norm_num]
    rw [holdLoop_armed_quiet t0 (d - 502) 502 (by omega)]
    rw [swPoll_release_silent_armed t0 (t0 + d)]
    rfl
  · intro h1
    unfold simulateHold
    rw [swPoll_press t0]
    dsimp only
    rw [show d - 1 = 500 + ((1499 + ((d - 2002) + 1)) + 1) from by omega]
    rw [holdLoop_split t0 500 ((1499 + ((d - 2002) + 1)) + 1) ⟨t0, false⟩ 1]
    rw [holdLoop_quiet t0 500 1 (by omega)]
    dsimp only
    rw [holdLoop_succ]
    rw [show t0 + (1 + 500) = t0 + 501 from by omega]
    rw [swPoll_held_long t0]
    dsimp only
    rw [show (1 : Nat) + 500 + 1 = 502 from by norm_num]
    rw [holdLoop_split t0 1499 ((d - 2002) + 1) ⟨t0, true⟩ 502]
    rw [holdLoop_armed_quiet t0 1499 502 (by omega)]
    dsimp only
    rw [holdLoop_succ]
    rw [show t0 + (502 + 1499) = t0 + 2001 from by omega]
    rw [swPoll_held_verylong t0]
    dsimp only
    rw [show (502 : Nat) + 1499 + 1 = 2002 from by norm_num]
    obtain ⟨hp, hevs⟩ := holdLoop_runaway t0 (d - 2002) false 2002 (by omega)
    have hfinal :
        swPoll (holdLoop ⟨0, false⟩ t0 2002 (d - 2002)).1 false false true
          (t0 + d) = ((holdLoop ⟨0, false⟩ t0 2002 (d - 2002)).1, []) := by
      have hst : (holdLoop ⟨0, false⟩ t0 2002 (d - 2002)).1 =
          ⟨0, (holdLoop ⟨0, false⟩ t0 2002 (d - 2002)).1.detectVeryLongPress⟩ := by
        cases hh : (holdLoop ⟨0, false⟩ t0 2002 (d - 2002)).1 with
        | mk pt dv =>
          rw [hh] at hp
          simpa using hp
      rw [hst, swPoll_release_silent_zero]
    rw [hfinal, hevs]
    simp

/-- C1 (corrected). For a single physical press-hold-release cycle (press at
time t0 >= 1, hold for d polls at one poll per millisecond), the input filter
emits exactly one of three mutually exclusive event sequences: for d <= 501
a press event and a release event with data d + 1; for 502 <= d <= 2001 a
press event and a long-press event with data 501 and no release event (the
release branch is skipped because detect_very_long_press_ is still set); for
d >= 2002 a press, a long-press and a very-long-press event followed by one
further event on every later poll while the switch stays held (press_time_
was cleared, so elapsed time restarts from the absolute clock value), and no
release event. The original claim wrongly asserted a release event in the
middle case and the absence of further events in the third case. -/
theorem c1_switch_gestures (t0 d : Nat) (ht : 1 ≤ t0) (hd : 1 ≤ d) :
    (d ≤ 501 → simulateHold t0 d = [0, (d : Int) + 1]) ∧
    (502 ≤ d → d ≤ 2001 → simulateHold t0 d = [0, 501]) ∧
    (2002 ≤ d → simulateHold t0 d =
      [0, 501, 2001] ++
        (List.range (d - 2002)).map (fun k => ((t0 + 2002 + k : Nat) : Int))) :=
  simulateHold_spec t0 d ht hd

/-- C1 counterexample to the claim as stated: a switch held for 1000 ms
(between the long-press and very-long-press thresholds) produces only the
press event (data 0) and the long-press event (data 501); the claimed
sequence press, long-press, release would have three events ending with a
release event of data 1001, but no release event is emitted. -/
theorem c1_switch_gestures_counterexample : simulateHold 1 1000 = [0, 501] :=
  (simulateHold_spec 1 1000 (by norm_num) (by norm_num)).2.1 (by norm_num)
    (by norm_num)

/-- C1 witness: the amended theorem applied at t0 = 1, d = 300 (a 300 ms
hold), giving exactly a press event and a release event with data 301. -/
theorem c1_switch_gestures_witness : simulateHold 1 300 = [0, 301] := by
  have h := (c1_switch_gestures 1 300 (by norm_num) (by norm_num)).1 (by norm_num)
  simpa using h

/-- C7 (confirmed). In every poll cycle, for a pot with filtered value f,
last reported value v and ADC sample a: a motion event is emitted if and only
if the newly smoothed value (31 * f + a) >> 5 differs from v by at least
kPotMoveThreshold in either direction; exactly when it is emitted, pot_value_
is updated to the smoothed value, and otherwise it is left unchanged, so the
last reported (quantized) value never changes while the difference stays
below the threshold. -/
theorem c7_pot_motion_events (f v a : Nat) :
    ((potPoll f v a).2.2.isSome ↔
      ((((31 * f + a) >>> 5 : Nat) : Int) - (v : Int)).natAbs ≥
        kPotMoveThreshold.toNat) ∧
    ((potPoll f v a).2.2 =
      if ((((31 * f + a) >>> 5 : Nat) : Int) - (v : Int)).natAbs ≥
          kPotMoveThreshold.toNat
      then some (((31 * f + a) >>> 5 : Nat) : Int) else none) ∧
    ((potPoll f v a).2.1 =
      if ((((31 * f + a) >>> 5 : Nat) : Int) - (v : Int)).natAbs ≥
          kPotMoveThreshold.toNat
      then (31 * f + a) >>> 5 else v) ∧
    ((potPoll f v a).1 = (31 * f + a) >>> 5) := by
  have hiff : ((((31 * f + a) >>> 5 : Nat) : Int) ≥ (v : Int) + kPotMoveThreshold ∨
      (((31 * f + a) >>> 5 : Nat) : Int) ≤ (v : Int) - kPotMoveThreshold) ↔
      ((((31 * f + a) >>> 5 : Nat) : Int) - (v : Int)).natAbs ≥
        kPotMoveThreshold.toNat := by
    simp only [kPotMoveThreshold]
    omega
  unfold potPoll
  by_cases h : (((31 * f + a) >>> 5 : Nat) : Int) ≥ (v : Int) + kPotMoveThreshold ∨
      (((31 * f + a) >>> 5 : Nat) : Int) ≤ (v : Int) - kPotMoveThreshold
  · simp [h, hiff.mp h]
  · simp [h, hiff.not.mp h]

/-- C9 (confirmed). Every switch event enqueued by the release branch of
Ui::Poll carries data equal to the elapsed hold time plus one, which is at
least 1 whenever the press timestamp is not in the future of the clock; and
Ui::DoEvents dispatches a switch event to OnSwitchPressed exactly when its
data is 0, so a release event is never dispatched as a press. -/
theorem c9_release_dispatch (st : SwState) (rl : Bool) (now : Nat)
    (h : st.pressTime ≤ now) :
    (∀ d ∈ (swPollRelease st rl now).2,
      d = (now : Int) - (st.pressTime : Int) + 1 ∧ 1 ≤ d ∧
        dispatchSwitch d = .releasedHandler) ∧
    (∀ d : Int, dispatchSwitch d = .pressedHandler ↔ d = 0) := by
  constructor
  · intro d hd
    unfold swPollRelease at hd
    by_cases hc : rl && (st.pressTime != 0) && !st.detectVeryLongPress
    · rw [if_pos hc] at hd
      simp only [List.mem_singleton] at hd
      subst hd
      refine ⟨rfl, by omega, ?_⟩
      unfold dispatchSwitch
      rw [if_neg (by omega)]
    · rw [if_neg hc] at hd
      simp at hd
  · intro d
    unfold dispatchSwitch
    by_cases hd : d = 0
    · simp [hd]
    · simp [hd]

/-- C9 witness: the theorem applied to the state with press timestamp 3, a
release at time 10; the single enqueued release event has data 8 >= 1 and is
dispatched to the release handler. -/
theorem c9_release_dispatch_witness :
    (1 : Int) ≤ 8 ∧ dispatchSwitch 8 = .releasedHandler := by
  have h := (c9_release_dispatch ⟨3, false⟩ true 10 (by norm_num)).1 8 (by decide)
  exact ⟨h.2.1, h.2.2⟩

/-- C10 (confirmed). Handling any switch press event — for every switch,
SELECT included — leaves the entire UI state (display mode, feature mode,
pot values, catch-up flags, oscillators) unchanged, and so does handling a
release event of any switch other than SELECT (SYNC, WAV1 or WAV2). -/
theorem c10_non_select_noop (s : UiState) (id : SwitchId) (d : Int) :
    onSwitchPressed s id d = s ∧ (id ≠ .select → onSwitchReleased s id d = s) := by
  refine ⟨rfl, fun h => ?_⟩
  cases id with
  | sync => rfl
  | wav1 => rfl
  | wav2 => rfl
  | select => exact absurd rfl h

/-- C10 witness: the theorem applied to a concrete SPLASH state, once for a
SELECT press (data 0) and once for a SYNC release with data 7. -/
theorem c10_non_select_noop_witness :
    onSwitchPressed splashState .select 0 = splashState ∧
      onSwitchReleased splashState .sync 7 = splashState :=
  ⟨(c10_non_select_noop splashState .select 0).1,
    (c10_non_select_noop splashState .sync 7).2 (by simp)⟩

/-- C2 (corrected). Once SPLASH has been left it is never entered again: no
event handler and no paint tick ever produces SPLASH from a non-SPLASH state.
While in SPLASH, pot events, press events and SELECT releases whose data is
at most the long-press threshold or above the very-long-press threshold cause
no mode change, and the paint tick either stays in SPLASH or moves to NORMAL
(the automatic, time-based exit). However — contrary to the original claim —
a switch release event with data between the long-press and very-long-press
thresholds handled while in SPLASH does change the mode: it moves the UI
directly to ZOOM, because Ui::OnSwitchReleased sets the mode to ZOOM on such
data without inspecting the current mode. -/
theorem c2_splash_transitions (s : UiState) (c : Nat) (id : SwitchId)
    (d pd : Int) (i : Fin 4) :
    (s.mode ≠ .splash →
      (onSwitchPressed s id d).mode ≠ .splash ∧
      (onSwitchReleased s id d).mode ≠ .splash ∧
      (onPotChanged s i pd).mode ≠ .splash ∧
      (uiPaintMode s.mode c).1 ≠ .splash) ∧
    (s.mode = .splash →
      (onSwitchPressed s id d).mode = .splash ∧
      (onPotChanged s i pd).mode = .splash ∧
      (d ≤ kLongPressDuration ∨ d > kVeryLongPressDuration →
        (onSwitchReleased s id d).mode = .splash) ∧
      ((uiPaintMode s.mode c).1 = .splash ∨ (uiPaintMode s.mode c).1 = .normal)) ∧
    (s.mode = .splash → kLongPressDuration < d → d ≤ kVeryLongPressDuration →
      (onSwitchReleased s .select d).mode = .zoom) := by
  refine ⟨?_, ?_, ?_⟩
  · intro hm
    refine ⟨hm, ?_, ?_, ?_⟩
    · unfold onSwitchReleased
      cases id with
      | sync => exact hm
      | wav1 => exact hm
      | wav2 => exact hm
      | select =>
        by_cases h1 : d > kVeryLongPressDuration
        · simpa [h1] using hm
        · by_cases h2 : d > kLongPressDuration
          · simp [h1, h2]
          · cases hmode : s.mode with
            | splash => exact absurd hmode hm
            | zoom => simp [h1, h2, hmode]
            | normal => simpa [h1, h2, hmode] using hm
    · unfold onPotChanged
      cases hmode : s.mode with
      | splash => exact absurd hmode hm
      | zoom => simpa [hmode] using hm
      | normal =>
        by_cases h : (pd - s.potCoarseValue i).natAbs < kCatchupThreshold.toNat
        · simpa [hmode, h] using hm
        · simpa [hmode, h] using hm
    · unfold uiPaintMode
      cases hmode : s.mode with
      | splash => exact absurd hmode hm
      | zoom => simp
      | normal => simp
  · intro hm
    refine ⟨hm, ?_, ?_, ?_⟩
    · unfold onPotChanged
      rw [hm]
      exact hm
    · intro hd
      unfold onSwitchReleased
      cases id with
      | sync => exact hm
      | wav1 => exact hm
      | wav2 => exact hm
      | select =>
        rcases hd with hd | hd
        · have h1 : ¬ d > kVeryLongPressDuration := by
            simp only [kLongPressDuration, kVeryLongPressDuration] at *
            omega
          have h2 : ¬ d > kLongPressDuration := by omega
          simp only [h1, h2, if_false, hm]
        · simp only [hd, if_true]
          exact hm
    · unfold uiPaintMode
      rw [hm]
      by_cases h : (c + 1) % 64 = 0 ∧ (c + 1) / 64 > 8
      · simp [h]
      · simp [h]
  · intro hm h1 h2
    unfold onSwitchReleased
    have hnot : ¬ d > kVeryLongPressDuration := by omega
    simp [hnot, h1]

/-- C2 counterexample to the claim as stated: in a concrete SPLASH state, a
SELECT release event with data 501 (between the thresholds) is handled and
the mode changes to ZOOM — a switch event handled in SPLASH does cause a
mode change, and the transition out of SPLASH is not to NORMAL. -/
theorem c2_splash_transitions_counterexample :
    (onSwitchReleased splashState .select 501).mode = .zoom := rfl

/-- C2 witness: the amended theorem applied at a concrete SPLASH state: a
SELECT release with data 100 keeps the mode SPLASH, while one with data 501
moves it to ZOOM. -/
theorem c2_splash_transitions_witness :
    (onSwitchReleased splashState .select 100).mode = .splash ∧
      (onSwitchReleased splashState .select 501).mode = .zoom := by
  constructor
  · exact ((c2_splash_transitions splashState 0 .select 100 0 0).2.1
      rfl).2.2.1 (Or.inl (by norm_num [kLongPressDuration]))
  · exact (c2_splash_transitions splashState 0 .select 501 0 0).2.2 rfl
      (by norm_num [kLongPressDuration]) (by norm_num [kVeryLongPressDuration])

/-- Mode preservation of Ui::OnPotChanged: no branch writes mode_. -/
theorem onPotChanged_mode (s : UiState) (i : Fin 4) (v : Int) :
    (onPotChanged s i v).mode = s.mode := by
  unfold onPotChanged
  cases hmode : s.mode with
  | splash => exact hmode
  | zoom => rfl
  | normal =>
    by_cases h : (v - s.potCoarseValue i).natAbs < kCatchupThreshold.toNat
    · simp [h]
    · simp only [if_neg h]
      exact hmode

/-- Coarse-value and catch-up-flag preservation of Ui::OnPotChanged in NORMAL
mode for pot i, when the event targets another pot or carries a value not
within the catch-up threshold of pot i's coarse value. -/
theorem onPotChanged_far_preserves (s : UiState) (i : Fin 4) (e : Fin 4 × Int)
    (hm : s.mode = .normal)
    (hfar : e.1 = i →
      ¬ (e.2 - s.potCoarseValue i).natAbs < kCatchupThreshold.toNat) :
    (onPotChanged s e.1 e.2).potCoarseValue i = s.potCoarseValue i ∧
      (onPotChanged s e.1 e.2).catchupState i = s.catchupState i := by
  unfold onPotChanged
  rw [hm]
  by_cases hj : e.1 = i
  · have h := hfar hj
    subst hj
    simp [h]
  · by_cases h : (e.2 - s.potCoarseValue e.1).natAbs < kCatchupThreshold.toNat
    · simp [h, Function.update_noteq (Ne.symm hj)]
    · simp [h]

/-- C4 (confirmed). The pot catch-up protocol: (a) a short SELECT release in
ZOOM moves the UI to NORMAL and sets the catch-up flag of every pot whose
last reported value differs from its coarse value by more than
kCatchupThreshold, leaving the coarse value itself unchanged; (b) in NORMAL,
a pot motion event whose value is not within kCatchupThreshold of the pot's
coarse value leaves the coarse value and the catch-up flag unchanged; (c) a
motion event whose value is within the threshold updates the coarse value to
that value and clears the catch-up flag; (d) consequently a whole sequence of
motion events, none of which comes within the threshold of pot i's coarse
value, leaves pot i's coarse value and catch-up flag unchanged. -/
theorem c4_catchup_protocol (s : UiState) (d v : Int) (i : Fin 4)
    (evs : List (Fin 4 × Int)) :
    (s.mode = .zoom → 0 < d → d ≤ kLongPressDuration →
      (s.potValue i - s.potCoarseValue i).natAbs > kCatchupThreshold.toNat →
      (onSwitchReleased s .select d).catchupState i = true ∧
      (onSwitchReleased s .select d).mode = .normal ∧
      (onSwitchReleased s .select d).potCoarseValue i = s.potCoarseValue i) ∧
    (s.mode = .normal →
      ¬ (v - s.potCoarseValue i).natAbs < kCatchupThreshold.toNat →
      (onPotChanged s i v).potCoarseValue i = s.potCoarseValue i ∧
      (onPotChanged s i v).catchupState i = s.catchupState i) ∧
    (s.mode = .normal →
      (v - s.potCoarseValue i).natAbs < kCatchupThreshold.toNat →
      (onPotChanged s i v).potCoarseValue i = v ∧
      (onPotChanged s i v).catchupState i = false) ∧
    (s.mode = .normal →
      (∀ e ∈ evs, e.1 = i →
        ¬ (e.2 - s.potCoarseValue i).natAbs < kCatchupThreshold.toNat) →
      (runPotEvents s evs).potCoarseValue i = s.potCoarseValue i ∧
      (runPotEvents s evs).catchupState i = s.catchupState i ∧
      (runPotEvents s evs).mode = .normal) := by
  refine ⟨?_, ?_, ?_, ?_⟩
  · intro hm h0 hd hfar
    unfold onSwitchReleased
    have h1 : ¬ d > kVeryLongPressDuration := by
      simp only [kLongPressDuration, kVeryLongPressDuration] at *
      omega
    have h2 : ¬ d > kLongPressDuration := by omega
    rw [if_neg h1, if_neg h2, hm]
    simp [hfar]
  · intro hm hfar
    unfold onPotChanged
    rw [hm, if_neg hfar]
    exact ⟨rfl, rfl⟩
  · intro hm hnear
    unfold onPotChanged
    rw [hm, if_pos hnear]
    simp
  · intro hm
    induction evs generalizing s with
    | nil => intro _; exact ⟨rfl, rfl, hm⟩
    | cons e es ih =>
      intro hall
      have hstep := onPotChanged_far_preserves s i e hm
        (fun hj => hall e (List.mem_cons_self e es) hj)
      have hmode : (onPotChanged s e.1 e.2).mode = .normal := by
        rw [onPotChanged_mode]; exact hm
      have hrest := ih (onPotChanged s e.1 e.2) hmode ?_
      · unfold runPotEvents at hrest ⊢
        simp only [List.foldl_cons]
        refine ⟨?_, ?_, hrest.2.2⟩
        · rw [hrest.1, hstep.1]
        · rw [hrest.2.1, hstep.2]
      · intro e2 he2 hj
        rw [hstep.1]
        exact hall e2 (List.mem_cons_of_mem e he2) hj

/-- C4 witness: the theorem applied to concrete states: leaving ZOOM with the
pot at 5000 against a coarse value of 100 sets the catch-up flag; in the
resulting NORMAL state a far motion event (4900) changes nothing, and a near
motion event (600) commits the value and clears the flag. -/
theorem c4_catchup_protocol_witness :
    ((onSwitchReleased zoomState .select 100).catchupState 0 = true ∧
      (onSwitchReleased zoomState .select 100).mode = .normal) ∧
    ((onPotChanged normalState 0 4900).potCoarseValue 0 = 100 ∧
      (onPotChanged normalState 0 4900).catchupState 0 = true) ∧
    ((onPotChanged normalState 0 600).potCoarseValue 0 = 600 ∧
      (onPotChanged normalState 0 600).catchupState 0 = false) := by
  have ha := (c4_catchup_protocol zoomState 100 0 0 []).1 rfl (by norm_num)
    (by norm_num [kLongPressDuration]) (by decide)
  have hb := (c4_catchup_protocol normalState 100 4900 0 []).2.1 rfl (by decide)
  have hc := (c4_catchup_protocol normalState 100 600 0 []).2.2.1 rfl (by decide)
  refine ⟨⟨ha.1, ha.2.1⟩, ⟨?_, ?_⟩, ⟨hc.1, hc.2⟩⟩
  · rw [hb.1]; decide
  · rw [hb.2]; decide

/-- C8 (confirmed). In NORMAL mode, a SELECT release whose data is positive
and at most the long-press threshold advances the feature mode to the next
value modulo FEAT_MODE_LAST, keeps the mode NORMAL, and re-initializes all 4
oscillators: each oscillator's phase, divided phase and initial phase become
0, its phase increment UINT32_MAX >> 8, its divider 1, its divider count 0
and its level UINT16_MAX (its pitch fields are untouched, which Lfo::Init
indeed does not reset). -/
theorem c8_feature_advance (s : UiState) (d : Int) (hm : s.mode = .normal)
    (h0 : 0 < d) (hd : d ≤ kLongPressDuration) :
    (onSwitchReleased s .select d).featMode = (s.featMode + 1) % featModeLast ∧
    (onSwitchReleased s .select d).mode = .normal ∧
    (∀ i, (onSwitchReleased s .select d).lfos i = lfoInitState (s.lfos i)) := by
  unfold onSwitchReleased
  have h1 : ¬ d > kVeryLongPressDuration := by
    simp only [kLongPressDuration, kVeryLongPressDuration] at *
    omega
  have h2 : ¬ d > kLongPressDuration := by omega
  rw [if_neg h1, if_neg h2, hm]
  exact ⟨rfl, rfl, fun i => rfl⟩

/-- C8 witness: the theorem applied to a concrete NORMAL state with feature
mode 0 and a release of data 100: the feature mode becomes 1, the mode stays
NORMAL, and oscillator 0 is reset to the Init defaults. -/
theorem c8_feature_advance_witness :
    (onSwitchReleased normalState .select 100).featMode = 1 ∧
    (onSwitchReleased normalState .select 100).mode = .normal ∧
    (onSwitchReleased normalState .select 100).lfos 0 =
      lfoInitState lfoZero := by
  have h := c8_feature_advance normalState 100 rfl (by norm_num)
    (by norm_num [kLongPressDuration])
  exact ⟨h.1, h.2.1, h.2.2 0⟩

/-- C6 (confirmed). For an oscillator state with divider D >= 1 and the
32-bit invariants (phase and increment below 2 ^ 32, divider count below D),
one call to Step: (a) establishes the claimed formula divided_phase =
phase / divider + (max_uint32 / divider) * divider_count on the new state;
(b) advances divider_count by exactly one modulo D when the accumulator
wraps and leaves it unchanged otherwise, so divider_count (and with it the
divided-phase cycle) completes exactly one full cycle per D base wraps;
(c) never decreases divided_phase — no backward jump — except at the wrap
that completes the D-th base cycle; and (d) at that completing wrap restarts
the cycle at divided_phase = phase / divider. -/
theorem c6_divided_phase (l : LfoState) (hD : 1 ≤ l.divider)
    (hp : l.phase < 2 ^ 32) (hc : l.dividerCount < l.divider)
    (hi : l.phaseIncrement < 2 ^ 32) :
    ((lfoStep l).dividedPhase =
      (lfoStep l).phase / l.divider +
        (2 ^ 32 - 1) / l.divider * (lfoStep l).dividerCount) ∧
    ((lfoStep l).dividerCount =
      if (lfoStep l).phase < l.phaseIncrement
      then (l.dividerCount + 1) % l.divider else l.dividerCount) ∧
    (l.dividedPhase =
        l.phase / l.divider + (2 ^ 32 - 1) / l.divider * l.dividerCount →
      ¬((lfoStep l).phase < l.phaseIncrement ∧
          (l.dividerCount + 1) % l.divider = 0) →
      l.dividedPhase ≤ (lfoStep l).dividedPhase) ∧
    ((lfoStep l).phase < l.phaseIncrement ∧
        (l.dividerCount + 1) % l.divider = 0 →
      (lfoStep l).dividedPhase = (lfoStep l).phase / l.divider) := by
  refine ⟨rfl, rfl, ?_, ?_⟩
  · intro hold hnc
    by_cases hw : (l.phase + l.phaseIncrement) % 2 ^ 32 < l.phaseIncrement
    · have hc1 : (l.dividerCount + 1) % l.divider = l.dividerCount + 1 := by
        rcases Nat.lt_or_ge (l.dividerCount + 1) l.divider with h | h
        · exact Nat.mod_eq_of_lt h
        · exfalso
          have heq : l.dividerCount + 1 = l.divider := by omega
          exact hnc ⟨hw, by rw [heq]; exact Nat.mod_self _⟩
      have hphase : l.phase ≤ 2 ^ 32 - 1 := by omega
      have h1 : l.phase / l.divider ≤ (2 ^ 32 - 1) / l.divider :=
        Nat.div_le_div_right hphase
      simp only [lfoStep, if_pos hw, hc1, hold]
      calc l.phase / l.divider + (2 ^ 32 - 1) / l.divider * l.dividerCount
          ≤ (2 ^ 32 - 1) / l.divider +
              (2 ^ 32 - 1) / l.divider * l.dividerCount := by omega
        _ = (2 ^ 32 - 1) / l.divider * (l.dividerCount + 1) := by ring
        _ ≤ (l.phase + l.phaseIncrement) % 2 ^ 32 / l.divider +
              (2 ^ 32 - 1) / l.divider * (l.dividerCount + 1) :=
            Nat.le_add_left _ _
    · have hnw : (l.phase + l.phaseIncrement) % 2 ^ 32 = l.phase + l.phaseIncrement := by
        rcases Nat.lt_or_ge (l.phase + l.phaseIncrement) (2 ^ 32) with h | h
        · exact Nat.mod_eq_of_lt h
        · exfalso
          apply hw
          omega
      have h1 : l.phase / l.divider ≤
          (l.phase + l.phaseIncrement) % 2 ^ 32 / l.divider := by
        rw [hnw]
        exact Nat.div_le_div_right (by omega)
      simp only [lfoStep, if_neg hw, hold]
      omega
  · intro hcomp
    simp only [lfoStep] at hcomp ⊢
    rw [if_pos hcomp.1, hcomp.2, Nat.mul_zero, Nat.add_zero]

/-- C6 witness: the theorem applied to a concrete state five counts before a
wrap with increment 10, divider 3 and divider_count 1: the step wraps, the
count advances to 2, the formula holds, and the divided phase does not jump
backward. -/
theorem c6_divided_phase_witness :
    ((lfoStep wrapLfo).dividedPhase =
      (lfoStep wrapLfo).phase / wrapLfo.divider +
        (2 ^ 32 - 1) / wrapLfo.divider * (lfoStep wrapLfo).dividerCount) ∧
    wrapLfo.dividedPhase ≤ (lfoStep wrapLfo).dividedPhase := by
  have h := c6_divided_phase wrapLfo (by norm_num [wrapLfo, lfoZero])
    (by norm_num [wrapLfo, lfoZero]) (by norm_num [wrapLfo, lfoZero])
    (by norm_num [wrapLfo, lfoZero])
  refine ⟨h.1, h.2.2.1 (by norm_num [wrapLfo, lfoZero]) ?_⟩
  intro hcontra
  have : ((2 : Nat) % 3) = 0 := by
    have h5 : (1 + 1) % wrapLfo.divider = 0 := hcontra.2
    simpa [wrapLfo, lfoZero] using h5
  norm_num at this

/-- Unfolding lemma: the first normalization loop does nothing on a
nonnegative pitch. -/
theorem octUp_nonneg (p : Int) (h : 0 ≤ p) : octUp p = (p, 0) := by
  unfold octUp
  rw [if_neg (by omega)]

/-- Unfolding lemma: one iteration of the first normalization loop. -/
theorem octUp_neg_eq (p : Int) (h : p < 0) :
    octUp p = ((octUp (p + kOctave)).1, (octUp (p + kOctave)).2 - 1) := by
  conv_lhs => rw [octUp]
  rw [if_pos h]

/-- Unfolding lemma: the second normalization loop does nothing on a pitch
below kOctave. -/
theorem octDown_lt (p : Int) (h : p < kOctave) : octDown p = (p, 0) := by
  unfold octDown
  rw [if_neg (by omega)]

/-- Unfolding lemma: one iteration of the second normalization loop. -/
theorem octDown_step (p : Int) (h : p ≥ kOctave) :
    octDown p = ((octDown (p - kOctave)).1, (octDown (p - kOctave)).2 + 1) := by
  conv_lhs => rw [octDown]
  rw [if_pos h]

/-- The second loop only increments the shift count. -/
theorem octDown_snd_nonneg (p : Int) : 0 ≤ (octDown p).2 := by
  by_cases h : p ≥ kOctave
  · rw [octDown_step p h]
    have := octDown_snd_nonneg (p - kOctave)
    simp only
    omega
  · rw [octDown_lt p (by omega)]
termination_by p.toNat
decreasing_by
  simp only [kOctave] at *
  omega

/-- The first loop only decrements the shift count. -/
theorem octUp_snd_nonpos (p : Int) : (octUp p).2 ≤ 0 := by
  by_cases h : p < 0
  · rw [octUp_neg_eq p h]
    have := octUp_snd_nonpos (p + kOctave)
    simp only
    omega
  · rw [octUp_nonneg p (by omega)]
termination_by (-p).toNat
decreasing_by
  simp only [kOctave] at *
  omega

/-- The first loop leaves a pitch below kOctave below kOctave and
nonnegative. -/
theorem octUp_fst_bounds (p : Int) (h : p < kOctave) :
    0 ≤ (octUp p).1 ∧ (octUp p).1 < kOctave := by
  by_cases hn : p < 0
  · rw [octUp_neg_eq p hn]
    have := octUp_fst_bounds (p + kOctave) (by simp only [kOctave] at *; omega)
    simpa using this
  · rw [octUp_nonneg p (by omega)]
    exact ⟨by omega, h⟩
termination_by (-p).toNat
decreasing_by
  simp only [kOctave] at *
  omega

/-- Adding one octave to the pitch leaves the normalized residual unchanged
and increments the net shift count by one. -/
theorem octNorm_add_oct (p : Int) :
    octNorm (p + kOctave) = ((octNorm p).1, (octNorm p).2 + 1) := by
  by_cases h : p < 0
  · unfold octNorm
    rw [octUp_neg_eq p h]
    simp only [Prod.mk.injEq]
    exact ⟨trivial, by omega⟩
  · unfold octNorm
    rw [octUp_nonneg p (by omega), octUp_nonneg (p + kOctave)
      (by simp only [kOctave] at *; omega)]
    simp only
    rw [octDown_step (p + kOctave) (by omega)]
    simp only [add_sub_cancel_right, Prod.mk.injEq]
    exact ⟨trivial, by omega⟩

/-- Nonnegative pitches normalize with a nonnegative shift count. -/
theorem octNorm_snd_of_nonneg (p : Int) (h : 0 ≤ p) : 0 ≤ (octNorm p).2 := by
  unfold octNorm
  rw [octUp_nonneg p h]
  simp only
  have := octDown_snd_nonneg p
  omega

/-- Negative pitches normalize with a negative shift count. -/
theorem octNorm_snd_of_neg (p : Int) (h : p < 0) : (octNorm p).2 < 0 := by
  unfold octNorm
  rw [octUp_neg_eq p h]
  simp only
  have h1 := octUp_snd_nonpos (p + kOctave)
  have h2 := octUp_fst_bounds p (by simp only [kOctave] at *; omega)
  rw [octUp_neg_eq p h] at h2
  simp only at h2
  rw [octDown_lt _ h2.2]
  omega

/-- The interpolated table value is a uint32. -/
theorem lutInterp_lt (tbl : Nat → Nat) (res : Int) :
    lutInterp tbl res < 2 ^ 32 := by
  unfold lutInterp
  exact Nat.mod_lt _ (by norm_num)

/-- C5 (confirmed, with the increment table as a parameter since
lut_increments lives outside src/). For every pitch, as long as the shifted
increment of pitch + kOctave does not overflow the 32-bit accumulator,
ComputePhaseIncrement(pitch + kOctave) equals ComputePhaseIncrement(pitch)
shifted left by one within integer rounding: the two agree exactly or differ
by the single truncated low bit, and for nonnegative pitches (where the
final shift is a left shift and no bit is discarded) the octave doubling is
exact. -/
theorem c5_octave_doubling (tbl : Nat → Nat) (p : Int)
    (hov : lutInterp tbl (octNorm p).1 <<< ((octNorm p).2 + 1).toNat < 2 ^ 32) :
    (computePhaseIncrement tbl (p + kOctave) =
        computePhaseIncrement tbl p <<< 1 ∨
      computePhaseIncrement tbl (p + kOctave) =
        computePhaseIncrement tbl p <<< 1 + 1) ∧
    (0 ≤ p → computePhaseIncrement tbl (p + kOctave) =
        computePhaseIncrement tbl p <<< 1) := by
  have hadd := octNorm_add_oct p
  unfold computePhaseIncrement
  rw [hadd]
  dsimp only
  set q := (octNorm p).1 with hq
  set n := (octNorm p).2 with hn
  have hlt := lutInterp_lt tbl q
  by_cases h0 : 0 ≤ n
  · have hn1 : (0 : Int) ≤ n + 1 := by omega
    rw [if_pos h0, if_pos hn1]
    have hto : (n + 1).toNat = n.toNat + 1 := by omega
    rw [hto] at hov ⊢
    have e1 : lutInterp tbl q <<< (n.toNat + 1) =
        (lutInterp tbl q <<< n.toNat) * 2 := by
      rw [Nat.shiftLeft_eq, Nat.shiftLeft_eq, pow_succ]
      ring
    have h2 : lutInterp tbl q <<< n.toNat < 2 ^ 32 := by
      rw [e1] at hov
      omega
    rw [Nat.mod_eq_of_lt hov, Nat.mod_eq_of_lt h2, e1, Nat.shiftLeft_eq _ 1,
      pow_one]
    exact ⟨Or.inl rfl, fun _ => rfl⟩
  · have hneg : n < 0 := by omega
    have hp : p < 0 := by
      by_contra hge
      have := octNorm_snd_of_nonneg p (by omega)
      rw [← hn] at this
      omega
    refine ⟨?_, fun hcontra => by omega⟩
    by_cases hm1 : n = -1
    · have hz : n + 1 = 0 := by omega
      rw [if_neg h0, hz, if_pos (le_refl (0 : Int)), Int.toNat_zero,
        Nat.shiftLeft_zero, Nat.mod_eq_of_lt hlt]
      have hk : (-n).toNat = 1 := by omega
      rw [hk, Nat.shiftRight_eq_div_pow, Nat.shiftLeft_eq, pow_one]
      omega
    · have hle : n ≤ -2 := by omega
      rw [if_neg h0, if_neg (by omega : ¬ (0 : Int) ≤ n + 1)]
      have hk : (-(n + 1)).toNat = (-n).toNat - 1 := by omega
      have hk2 : 1 ≤ (-n).toNat := by omega
      rw [hk]
      have hdd : lutInterp tbl q >>> (-n).toNat =
          (lutInterp tbl q >>> ((-n).toNat - 1)) / 2 := by
        rw [Nat.shiftRight_eq_div_pow, Nat.shiftRight_eq_div_pow,
          Nat.div_div_eq_div_mul]
        congr 1
        rw [← pow_succ]
        congr 1
        omega
      rw [hdd, Nat.shiftLeft_eq, pow_one]
      omega

/-- C5 witness: the theorem applied at pitch 0 with the constant increment
table 3: one octave up, the phase increment is exactly doubled (6 = 3 << 1). -/
theorem c5_octave_doubling_witness :
    computePhaseIncrement (fun _ => 3) (0 + kOctave) =
      computePhaseIncrement (fun _ => 3) 0 <<< 1 := by
  have h1 : octNorm 0 = (0, 0) := by
    unfold octNorm
    rw [octUp_nonneg 0 le_rfl]
    dsimp only
    rw [octDown_lt 0 (by norm_num [kOctave])]
    rfl
  refine (c5_octave_doubling (fun _ => 3) 0 ?_).2 le_rfl
  rw [h1]
  decide

/-- C3 (code bug). Lfo::ComputeSampleShape overwrites its selector with
SHAPE_SAW before dispatching (the source marks this line TODO temp), so for
every environment, every oscillator state and every selector value the
function returns the saw sample — in particular the TRIANGLE selector does
not return the triangle computation: at a concrete band-D state (very low
pitch, where the closed forms apply and no external table is consulted) the
dispatched value differs from the triangle sample. -/
theorem c3_shape_dispatch_bug :
    (∀ (env : WaveEnv) (l : LfoState) (s : LfoShape),
      computeSampleShape env l s = computeSampleSaw env l) ∧
    computeSampleShape bandDEnv bandDLfo .shapeTriangle = 32678 ∧
    computeSampleTriangle bandDEnv bandDLfo = -32768 := by
  refine ⟨fun env l s => rfl, by decide, by decide⟩

end Batumi
